import Mathlib

/-!
Shallow embedding of the social-login application (`app.py`): the identity
upsert (`save_user`), the three OAuth callback handlers (`auth_google`,
`auth_facebook`, `auth_redirect`), `logout` and the home page, together with
theorems about them.

External collaborators (the OAuth libraries, the HTTP layer, the Supabase
client, the network) are modelled as environments carrying the results of the
outbound calls; Python dicts / JSON payloads are modelled by the `Json` type;
a raised Python exception is modelled by `Except.error`.
-/

/- JSON values / Python dict payloads, as exchanged with the providers and
stored in `raw_data`.  `JObj` is the spine of an object (a Python dict),
`JArr` the spine of an array. -/
mutual
/-- JSON value / Python object. -/
inductive Json where
  | null
  | bool (b : Bool)
  | num (n : Int)
  | str (s : String)
  | arr (elems : JArr)
  | obj (fields : JObj)
  deriving DecidableEq

inductive JArr where
  | nil
  | cons (head : Json) (tail : JArr)
  deriving DecidableEq

inductive JObj where
  | nil
  | cons (key : String) (val : Json) (tail : JObj)
  deriving DecidableEq
end

instance {ε α : Type} [DecidableEq ε] [DecidableEq α] : DecidableEq (Except ε α) :=
  fun a b =>
    match a, b with
    | .ok x, .ok y =>
      if h : x = y then .isTrue (by rw [h]) else .isFalse (fun he => h (Except.ok.inj he))
    | .error x, .error y =>
      if h : x = y then .isTrue (by rw [h]) else .isFalse (fun he => h (Except.error.inj he))
    | .ok _, .error _ => .isFalse (fun he => Except.noConfusion he)
    | .error _, .ok _ => .isFalse (fun he => Except.noConfusion he)

/-- Python `d.get(k)` on a dict: the value at the first matching key, if any. -/
def jlookup : JObj → String → Option Json
  | .nil, _ => none
  | .cons k v rest, key => if k = key then some v else jlookup rest key

def JArr.isNil : JArr → Bool
  | .nil => true
  | .cons _ _ => false

def JObj.isNil : JObj → Bool
  | .nil => true
  | .cons _ _ _ => false

/-- Python truthiness of a JSON value (`None`, `False`, `0`, `""`, `[]`, `{}`
are falsy). -/
def Json.truthy : Json → Bool
  | .null => false
  | .bool b => b
  | .num n => decide (n ≠ 0)
  | .str s => decide (s ≠ "")
  | .arr a => !a.isNil
  | .obj o => !o.isNil

/-- Truthiness of `d.get(k)`: Python `None` (key absent) is falsy. -/
def optTruthy : Option Json → Bool
  | none => false
  | some j => j.truthy

/-- Python `a or b` on two `.get` results: `a` if truthy, else `b`. -/
def pyOr (a b : Option Json) : Option Json :=
  if optTruthy a then a else b

/-- Python `j.get(k, d)` where `j` may be any value: raises `AttributeError`
unless `j` is a dict. -/
def pyGetD (j : Json) (k : String) (d : Json) : Except String Json :=
  match j with
  | .obj fs => .ok ((jlookup fs k).getD d)
  | _ => .error "AttributeError"

/-- Python `j.get(k)` where `j` may be any value: raises `AttributeError`
unless `j` is a dict. -/
def pyGet (j : Json) (k : String) : Except String (Option Json) :=
  match j with
  | .obj fs => .ok (jlookup fs k)
  | _ => .error "AttributeError"

/-- One row of the `auth_users` table. -/
structure Record where
  provider : String
  provider_user_id : Option Json
  name : Option Json
  email : Option Json
  profile_picture : Option Json
  raw_data : Json
  updated_at : Nat
  deriving DecidableEq

/-- The `auth_users` table, as the list of its rows. -/
abbrev Store := List Record

/-- The arguments of one `save_user` call (the normalized profile).  Each
field holds exactly what the Python call site passes: the result of a
`.get`, hence an `Option Json`. -/
structure SaveArgs where
  provider : String
  provider_id : Option Json
  name : Option Json
  email : Option Json
  picture : Option Json
  raw_data : Json
  deriving DecidableEq

/-- The `data` dict built at the top of `save_user`: all seven columns,
with `updated_at` set to the current time `t`. -/
def recordOf (a : SaveArgs) (t : Nat) : Record :=
  ⟨a.provider, a.provider_id, a.name, a.email, a.picture, a.raw_data, t⟩

/-- The row filter of `.eq("provider", p).eq("provider_user_id", pid)`. -/
def keyMatch (r : Record) (p : String) (pid : Option Json) : Bool :=
  decide (r.provider = p ∧ r.provider_user_id = pid)

/-- The `select("*").eq(...).eq(...)` query: all rows matching the key. -/
def keyFilter (store : Store) (p : String) (pid : Option Json) : Store :=
  store.filter (fun r => keyMatch r p pid)

/-- `save_user` from `app.py`: query for existing rows with the same
(provider, provider_user_id); if any exist, `update(data)` overwrites every
matching row with `data`; otherwise `insert(data)` appends a new row. -/
def save_user (store : Store) (a : SaveArgs) (t : Nat) : Store :=
  let data := recordOf a t
  let existing := keyFilter store a.provider a.provider_id
  if existing.isEmpty then
    store ++ [data]
  else
    store.map (fun r => if keyMatch r a.provider a.provider_id then data else r)

/-- `save_user` seen from a callback handler: the database calls can also
fail (network error, rejected write), in which case an exception is raised
and the table is unchanged.  `dbOk` says whether the calls succeed. -/
def save_userE (dbOk : Bool) (store : Store) (a : SaveArgs) (t : Nat) :
    Except String Store :=
  if dbOk then .ok (save_user store a t) else .error "db error"

/-- The response a route handler produces. -/
inductive Response where
  | redirect (url : String)
  | errorPage (msg : String)
  | json (body : Json)
  deriving DecidableEq

/-- The per-browser session: the dict behind `request.session`. -/
abbrev Session := List (String × Json)

/-- Python `session.get(k)`. -/
def sget (s : Session) (k : String) : Option Json :=
  match s with
  | [] => none
  | (k', v) :: rest => if k' = k then some v else sget rest k

/-- Python `session[k] = v`: replace the value in place if the key exists,
else append the new entry. -/
def sset (s : Session) (k : String) (v : Json) : Session :=
  match s with
  | [] => [(k, v)]
  | (k', v') :: rest =>
    if k' = k then (k', v) :: rest else (k', v') :: sset rest k v

/-- The `/` route: the template is rendered with `session.get("user")`,
so the displayed user state is exactly that value (`none` = anonymous). -/
def home (s : Session) : Option Json :=
  sget s "user"

/-- The `/logout` route: `request.session.clear()` then redirect to `/`.
The store is untouched. -/
def logout (_session : Session) (store : Store) : Response × Session × Store :=
  (.redirect "/", [], store)

/-- Environment of the Google callback: the results of the two outbound
OAuth calls (`authorize_access_token`, `userinfo`), whether the database
calls succeed, and the current time.  `dict(user_info)` is a dict (`JObj`). -/
structure GoogleEnv where
  token : Except String Json
  userinfo : Json → Except String JObj
  dbOk : Bool
  time : Nat

/-- The normalized profile the Google handler passes to `save_user`. -/
def googleArgs (user_data : JObj) : SaveArgs :=
  { provider := "google"
    provider_id := jlookup user_data "sub"
    name := jlookup user_data "name"
    email := jlookup user_data "email"
    picture := jlookup user_data "picture"
    raw_data := .obj user_data }

/-- The `/auth/google` handler.  The whole body runs inside `try/except`,
so any raised exception becomes an `error.html` page. -/
def auth_google (env : GoogleEnv) (session : Session) (store : Store) :
    Response × Session × Store :=
  match env.token with
  | .error e => (.errorPage e, session, store)
  | .ok token =>
    match env.userinfo token with
    | .error e => (.errorPage e, session, store)
    | .ok user_data =>
      match save_userE env.dbOk store (googleArgs user_data) env.time with
      | .error e => (.errorPage e, session, store)
      | .ok store' =>
        (.redirect "/", sset session "user" (.obj user_data), store')

/-- Environment of the Facebook callback: token exchange result, the body of
`GET me?fields=id,name,email,picture` (`resp.json()`, any JSON value),
database success flag, current time. -/
structure FacebookEnv where
  token : Except String Json
  me : Json → Except String Json
  dbOk : Bool
  time : Nat

/-- The chained lookup `user_info.get("picture", {}).get("data", {}).get("url")`:
raises `AttributeError` if an intermediate value is not a dict. -/
def fbPicture (user_info : Json) : Except String (Option Json) :=
  match pyGetD user_info "picture" (.obj .nil) with
  | .error e => .error e
  | .ok p =>
    match pyGetD p "data" (.obj .nil) with
    | .error e => .error e
    | .ok d => pyGet d "url"

/-- The normalized profile the Facebook handler passes to `save_user`:
raises unless `user_info` is a dict and the picture chain succeeds. -/
def facebookArgs (user_info : Json) : Except String SaveArgs :=
  match user_info with
  | .obj fs =>
    match fbPicture user_info with
    | .error e => .error e
    | .ok pic =>
      .ok { provider := "facebook"
            provider_id := jlookup fs "id"
            name := jlookup fs "name"
            email := jlookup fs "email"
            picture := pic
            raw_data := user_info }
  | _ => .error "AttributeError"

/-- The `/auth/facebook` handler, with the same `try/except` as Google. -/
def auth_facebook (env : FacebookEnv) (session : Session) (store : Store) :
    Response × Session × Store :=
  match env.token with
  | .error e => (.errorPage e, session, store)
  | .ok token =>
    match env.me token with
    | .error e => (.errorPage e, session, store)
    | .ok user_info =>
      match facebookArgs user_info with
      | .error e => (.errorPage e, session, store)
      | .ok a =>
        match save_userE env.dbOk store a env.time with
        | .error e => (.errorPage e, session, store)
        | .ok store' =>
          (.redirect "/", sset session "user" user_info, store')

/-- Environment of the Microsoft callback: the `code` query parameter, the
MSAL `acquire_token_by_authorization_code` result (a dict when the call
itself does not raise), the Graph `/me` response body keyed by the access
token, database success flag, current time. -/
structure MicrosoftEnv where
  code : Option String
  tokenResult : Except String JObj
  graph : Json → Except String Json
  dbOk : Bool
  time : Nat

/-- Python `if not code:` on the `code` query parameter: true when the
parameter is absent or the empty string. -/
def msCodeMissing (code : Option String) : Bool :=
  match code with
  | none => true
  | some s => decide (s = "")

/-- Microsoft email normalization:
`graph_data.get("mail") or graph_data.get("userPrincipalName")`. -/
def msEmail (graph_data : JObj) : Option Json :=
  pyOr (jlookup graph_data "mail") (jlookup graph_data "userPrincipalName")

/-- The normalized profile the Microsoft handler passes to `save_user`:
raises unless `graph_data` is a dict; `picture` is the literal `None`. -/
def microsoftArgs (graph_data : Json) : Except String SaveArgs :=
  match graph_data with
  | .obj fs =>
    .ok { provider := "microsoft"
          provider_id := jlookup fs "id"
          name := jlookup fs "displayName"
          email := msEmail fs
          picture := none
          raw_data := graph_data }
  | _ => .error "AttributeError"

/-- The `/auth/redirect` (Microsoft) handler.  Unlike the other two, its body
has no `try/except`: the two explicit checks return raw JSON objects, and
every raised exception (token exchange raising, missing `access_token` key,
graph fetch, normalization, `save_user`) propagates out as `Except.error`. -/
def auth_redirect (env : MicrosoftEnv) (session : Session) (store : Store) :
    Except String (Response × Session × Store) :=
  if msCodeMissing env.code then
    .ok (.json (.obj (.cons "error" (.str "Missing authorization code") .nil)),
         session, store)
  else
    match env.tokenResult with
    | .error e => .error e
    | .ok result =>
      if (jlookup result "error").isSome then
        .ok (.json (.obj (.cons "error" ((jlookup result "error").getD .null)
                (.cons "description" ((jlookup result "error_description").getD .null)
                  .nil))),
             session, store)
      else
        match jlookup result "access_token" with
        | none => .error "KeyError"
        | some access_token =>
          match env.graph access_token with
          | .error e => .error e
          | .ok graph_data =>
            match microsoftArgs graph_data with
            | .error e => .error e
            | .ok a =>
              match save_userE env.dbOk store a env.time with
              | .error e => .error e
              | .ok store' =>
                .ok (.redirect "/", sset session "user" graph_data, store')

/-- One user-visible operation against the app: a callback attempt for one
of the providers (with its environment of external-call results) or a
logout. -/
inductive Op where
  | opGoogle (env : GoogleEnv)
  | opFacebook (env : FacebookEnv)
  | opMicrosoft (env : MicrosoftEnv)
  | opLogout

/-- Effect of one operation on the session and store.  An exception escaping
the Microsoft handler yields a 500 response; the session write never ran and
the store holds only the writes completed before the raise, so the state is
unchanged. -/
def runOp (st : Session × Store) (o : Op) : Session × Store :=
  match o with
  | .opGoogle env =>
    let r := auth_google env st.1 st.2
    (r.2.1, r.2.2)
  | .opFacebook env =>
    let r := auth_facebook env st.1 st.2
    (r.2.1, r.2.2)
  | .opMicrosoft env =>
    match auth_redirect env st.1 st.2 with
    | .ok r => (r.2.1, r.2.2)
    | .error _ => st
  | .opLogout =>
    let r := logout st.1 st.2
    (r.2.1, r.2.2)

/-- Effect of a sequence of operations, applied left to right. -/
def runOps (ops : List Op) (st : Session × Store) : Session × Store :=
  ops.foldl runOp st

/-- Spec-side description of one callback attempt: `some p` when the attempt
succeeds and writes the profile `p` into the session, `none` when any step
fails (or for logout). -/
def opProfile : Op → Option Json
  | .opGoogle env =>
    match env.token with
    | .error _ => none
    | .ok token =>
      match env.userinfo token with
      | .error _ => none
      | .ok user_data => if env.dbOk then some (.obj user_data) else none
  | .opFacebook env =>
    match env.token with
    | .error _ => none
    | .ok token =>
      match env.me token with
      | .error _ => none
      | .ok user_info =>
        match facebookArgs user_info with
        | .error _ => none
        | .ok _ => if env.dbOk then some user_info else none
  | .opMicrosoft env =>
    if msCodeMissing env.code then none
    else
      match env.tokenResult with
      | .error _ => none
      | .ok result =>
        if (jlookup result "error").isSome then none
        else
          match jlookup result "access_token" with
          | none => none
          | some access_token =>
            match env.graph access_token with
            | .error _ => none
            | .ok graph_data =>
              match microsoftArgs graph_data with
              | .error _ => none
              | .ok _ => if env.dbOk then some graph_data else none
  | .opLogout => none

/-- Spec-side session transition: logout clears the `user` entry, a
successful callback overwrites it with the new profile, a failed callback
leaves it unchanged. -/
def applyOpUser (o : Op) (u : Option Json) : Option Json :=
  match o with
  | .opLogout => none
  | _ =>
    match opProfile o with
    | some p => some p
    | none => u

/-- Spec-side `user` entry after a sequence of operations, starting from a
given `user` entry. -/
def specUser : List Op → Option Json → Option Json
  | [], u => u
  | o :: rest, u => specUser rest (applyOpUser o u)

/-- First stored row matching a (provider, provider_user_id) key, if any. -/
def findKey (store : Store) (p : String) (pid : Option Json) : Option Record :=
  (keyFilter store p pid).head?

/-- The store invariant of §3: at most one row per
(provider, provider_user_id) pair. -/
def atMostOne (store : Store) : Prop :=
  ∀ p pid, (keyFilter store p pid).length ≤ 1

/-- Innermost dict of §8's Facebook example: `{"url": "http://img"}`. -/
def fbDemoData : JObj := .cons "url" (.str "http://img") .nil

/-- Middle dict of §8's Facebook example: `{"data": {"url": ...}}`. -/
def fbDemoPic : JObj := .cons "data" (.obj fbDemoData) .nil

/-- Fields of §8's Facebook example profile. -/
def fbDemoFields : JObj :=
  .cons "id" (.str "f1") (.cons "name" (.str "A")
    (.cons "email" (.str "a@x.com") (.cons "picture" (.obj fbDemoPic) .nil)))

/-- The Facebook profile of §8's normalization example. -/
def fbDemoProfile : Json := .obj fbDemoFields

/-- The normalized profile produced from `fbDemoProfile`. -/
def fbDemoArgs : SaveArgs :=
  { provider := "facebook"
    provider_id := some (.str "f1")
    name := some (.str "A")
    email := some (.str "a@x.com")
    picture := some (.str "http://img")
    raw_data := fbDemoProfile }

/-- The JSON body returned for a missing authorization code. -/
def msMissingBody : Json :=
  .obj (.cons "error" (.str "Missing authorization code") .nil)

/-- Microsoft Graph profile with `mail: null` (§8's example). -/
def msNullMail : JObj :=
  .cons "mail" .null (.cons "userPrincipalName" (.str "a@x.com") .nil)

/-- Microsoft Graph profile whose `mail` is present, non-null, but empty. -/
def msMailEmpty : JObj :=
  .cons "mail" (.str "") (.cons "userPrincipalName" (.str "a@x.com") .nil)

/-- A Microsoft callback run whose token exchange and profile fetch succeed
but whose database write raises. -/
def msEscapeEnv : MicrosoftEnv :=
  { code := some "authcode"
    tokenResult := .ok (.cons "access_token" (.str "tok") .nil)
    graph := fun _ => .ok (.obj (.cons "id" (.str "m1") .nil))
    dbOk := false
    time := 0 }

/-- A Microsoft callback request without a `code` query parameter. -/
def msNoCodeEnv : MicrosoftEnv :=
  { code := none
    tokenResult := .error "unused"
    graph := fun _ => .error "unused"
    dbOk := true
    time := 0 }

/-- A Google callback run whose token exchange raises. -/
def gFailEnv : GoogleEnv :=
  { token := .error "oauth error"
    userinfo := fun _ => .error "unused"
    dbOk := true
    time := 0 }

/-- A Facebook callback run whose profile fetch raises. -/
def fbFailEnv : FacebookEnv :=
  { token := .ok (.str "tok")
    me := fun _ => .error "network error"
    dbOk := true
    time := 0 }

/-- Arguments of a demo `save_user` call. -/
def demoArgs : SaveArgs :=
  { provider := "google"
    provider_id := some (.str "g1")
    name := some (.str "N")
    email := some (.str "n@x.com")
    picture := none
    raw_data := .null }

/-- Same identity as `demoArgs`, changed name and email. -/
def demoArgs2 : SaveArgs :=
  { provider := "google"
    provider_id := some (.str "g1")
    name := some (.str "M")
    email := some (.str "m@x.com")
    picture := none
    raw_data := .null }

/-- The normalized profile produced from `msNullMail`. -/
def msDemoArgs : SaveArgs :=
  { provider := "microsoft"
    provider_id := none
    name := none
    email := some (.str "a@x.com")
    picture := none
    raw_data := .obj msNullMail }

/-- The `data` row always matches its own key. -/
lemma keyMatch_recordOf (a : SaveArgs) (t : Nat) :
    keyMatch (recordOf a t) a.provider a.provider_id = true := by
  simp [keyMatch, recordOf]

/-- When no row matches the key, `save_user` takes the insert branch. -/
lemma save_user_insert (store : Store) (a : SaveArgs) (t : Nat)
    (h : (keyFilter store a.provider a.provider_id).isEmpty = true) :
    save_user store a t = store ++ [recordOf a t] := by
  simp only [save_user]
  rw [h]
  simp

/-- When some row matches the key, `save_user` takes the update branch. -/
lemma save_user_update (store : Store) (a : SaveArgs) (t : Nat)
    (h : (keyFilter store a.provider a.provider_id).isEmpty = false) :
    save_user store a t =
      store.map (fun r =>
        if keyMatch r a.provider a.provider_id then recordOf a t else r) := by
  simp only [save_user]
  rw [h]
  simp

/-- The update branch turns every row matching the key into the new row. -/
lemma keyFilter_map_self (store : Store) (a : SaveArgs) (t : Nat) :
    keyFilter (store.map (fun r =>
        if keyMatch r a.provider a.provider_id then recordOf a t else r))
      a.provider a.provider_id
    = (keyFilter store a.provider a.provider_id).map (fun _ => recordOf a t) := by
  induction store with
  | nil => rfl
  | cons r rest ih =>
    by_cases h : keyMatch r a.provider a.provider_id
    · simp only [List.map_cons, keyFilter, List.filter_cons, h, if_true,
        keyMatch_recordOf]
      simpa [keyFilter] using ih
    · simp only [List.map_cons, keyFilter, List.filter_cons, h, if_false,
        Bool.false_eq_true]
      simpa [keyFilter] using ih

/-- The update branch leaves rows with any other key untouched. -/
lemma keyFilter_map_ne (store : Store) (a : SaveArgs) (t : Nat)
    (p : String) (pid : Option Json) (h : ¬(p = a.provider ∧ pid = a.provider_id)) :
    keyFilter (store.map (fun r =>
        if keyMatch r a.provider a.provider_id then recordOf a t else r)) p pid
    = keyFilter store p pid := by
  induction store with
  | nil => rfl
  | cons r rest ih =>
    by_cases hr : keyMatch r a.provider a.provider_id
    · have hrk : r.provider = a.provider ∧ r.provider_user_id = a.provider_id := by
        simpa [keyMatch] using hr
      have h1 : keyMatch (recordOf a t) p pid = false := by
        simp only [keyMatch, recordOf, decide_eq_false_iff_not]
        rintro ⟨hp, hpid⟩
        exact h ⟨hp.symm, hpid.symm⟩
      have h2 : keyMatch r p pid = false := by
        simp only [keyMatch, decide_eq_false_iff_not]
        rintro ⟨hp, hpid⟩
        exact h ⟨(hrk.1 ▸ hp).symm, (hrk.2 ▸ hpid).symm⟩
      simp only [List.map_cons, keyFilter, List.filter_cons, hr, if_true, h1, h2,
        Bool.false_eq_true, if_false]
      simpa [keyFilter] using ih
    · by_cases hrp : keyMatch r p pid <;>
        · simp only [List.map_cons, keyFilter, List.filter_cons, hr, hrp,
            Bool.false_eq_true, if_false, if_true]
          simpa [keyFilter, hrp] using ih

/-- Rows matching the saved key after `save_user`: exactly the new row when
the key was absent, else every previously matching row overwritten by it. -/
lemma keyFilter_save_user_self (store : Store) (a : SaveArgs) (t : Nat) :
    keyFilter (save_user store a t) a.provider a.provider_id =
    if (keyFilter store a.provider a.provider_id).isEmpty then [recordOf a t]
    else (keyFilter store a.provider a.provider_id).map (fun _ => recordOf a t) := by
  by_cases h : (keyFilter store a.provider a.provider_id).isEmpty
  · have hnil : keyFilter store a.provider a.provider_id = [] := by
      simpa [List.isEmpty_iff] using h
    rw [save_user_insert store a t h, h]
    simp only [if_pos trivial, keyFilter, List.filter_append] at hnil ⊢
    rw [hnil]
    simp [keyMatch_recordOf]
  · rw [save_user_update store a t (by simpa using h), keyFilter_map_self]
    simp [h]

/-- Rows with any other key are untouched by `save_user`. -/
lemma keyFilter_save_user_ne (store : Store) (a : SaveArgs) (t : Nat)
    (p : String) (pid : Option Json) (h : ¬(p = a.provider ∧ pid = a.provider_id)) :
    keyFilter (save_user store a t) p pid = keyFilter store p pid := by
  have h1 : keyMatch (recordOf a t) p pid = false := by
    simp only [keyMatch, recordOf, decide_eq_false_iff_not]
    rintro ⟨hp, hpid⟩
    exact h ⟨hp.symm, hpid.symm⟩
  by_cases he : (keyFilter store a.provider a.provider_id).isEmpty
  · rw [save_user_insert store a t he]
    simp [keyFilter, List.filter_append, h1]
  · rw [save_user_update store a t (by simpa using he)]
    exact keyFilter_map_ne store a t p pid h

/-- Row count after `save_user`: one more on insert, unchanged on update. -/
lemma length_save_user (store : Store) (a : SaveArgs) (t : Nat) :
    (save_user store a t).length =
    if (keyFilter store a.provider a.provider_id).isEmpty then store.length + 1
    else store.length := by
  by_cases h : (keyFilter store a.provider a.provider_id).isEmpty
  · rw [save_user_insert store a t h]
    simp [h]
  · rw [save_user_update store a t (by simpa using h)]
    simp [h]

/-- After `save_user`, the first row matching the saved key is the new row. -/
lemma findKey_save_user (store : Store) (a : SaveArgs) (t : Nat) :
    findKey (save_user store a t) a.provider a.provider_id = some (recordOf a t) := by
  unfold findKey
  rw [keyFilter_save_user_self]
  by_cases h : (keyFilter store a.provider a.provider_id).isEmpty
  · simp [h]
  · cases hl : keyFilter store a.provider a.provider_id with
    | nil => simp [hl] at h
    | cons x xs => simp [h, hl]

/-- `save_user` preserves the at-most-one-row-per-key invariant. -/
lemma save_user_atMostOne (store : Store) (a : SaveArgs) (t : Nat)
    (h : atMostOne store) : atMostOne (save_user store a t) := by
  intro p pid
  by_cases hk : p = a.provider ∧ pid = a.provider_id
  · obtain ⟨hp, hpid⟩ := hk
    subst hp; subst hpid
    rw [keyFilter_save_user_self]
    by_cases he : (keyFilter store a.provider a.provider_id).isEmpty
    · simp [he]
    · simpa [he] using h a.provider a.provider_id
  · rw [keyFilter_save_user_ne store a t p pid hk]
    exact h p pid

/-- Reading back the session key just written. -/
lemma sget_sset_self (s : Session) (k : String) (v : Json) :
    sget (sset s k v) k = some v := by
  induction s with
  | nil => simp [sset, sget]
  | cons e rest ih =>
    obtain ⟨k', v'⟩ := e
    by_cases h : k' = k <;> simp [sset, sget, h, ih]

/-- Effect of one operation on the session's `user` entry matches the
spec-side transition. -/
lemma home_runOp (o : Op) (s : Session) (st : Store) :
    home (runOp (s, st) o).1 = applyOpUser o (home s) := by
  cases o with
  | opGoogle env =>
    cases htok : env.token with
    | error e => simp [runOp, auth_google, htok, applyOpUser, opProfile]
    | ok token =>
      cases hui : env.userinfo token with
      | error e => simp [runOp, auth_google, htok, hui, applyOpUser, opProfile]
      | ok user_data =>
        cases hdb : env.dbOk <;>
          simp [runOp, auth_google, htok, hui, hdb, save_userE, applyOpUser,
            opProfile, home, sget_sset_self]
  | opFacebook env =>
    cases htok : env.token with
    | error e => simp [runOp, auth_facebook, htok, applyOpUser, opProfile]
    | ok token =>
      cases hme : env.me token with
      | error e => simp [runOp, auth_facebook, htok, hme, applyOpUser, opProfile]
      | ok user_info =>
        cases hargs : facebookArgs user_info with
        | error e =>
          simp [runOp, auth_facebook, htok, hme, hargs, applyOpUser, opProfile]
        | ok a =>
          cases hdb : env.dbOk <;>
            simp [runOp, auth_facebook, htok, hme, hargs, hdb, save_userE,
              applyOpUser, opProfile, home, sget_sset_self]
  | opMicrosoft env =>
    by_cases hc : msCodeMissing env.code
    · simp [runOp, auth_redirect, hc, applyOpUser, opProfile]
    · cases htr : env.tokenResult with
      | error e => simp [runOp, auth_redirect, hc, htr, applyOpUser, opProfile]
      | ok result =>
        by_cases herr : (jlookup result "error").isSome
        · simp [runOp, auth_redirect, hc, htr, herr, applyOpUser, opProfile]
        · cases hat : jlookup result "access_token" with
          | none =>
            simp [runOp, auth_redirect, hc, htr, herr, hat, applyOpUser, opProfile]
          | some access_token =>
            cases hg : env.graph access_token with
            | error e =>
              simp [runOp, auth_redirect, hc, htr, herr, hat, hg, applyOpUser,
                opProfile]
            | ok graph_data =>
              cases hargs : microsoftArgs graph_data with
              | error e =>
                simp [runOp, auth_redirect, hc, htr, herr, hat, hg, hargs,
                  applyOpUser, opProfile]
              | ok a =>
                cases hdb : env.dbOk <;>
                  simp [runOp, auth_redirect, hc, htr, herr, hat, hg, hargs, hdb,
                    save_userE, applyOpUser, opProfile, home, sget_sset_self]
  | opLogout => simp [runOp, logout, applyOpUser, home, sget]

/-- The session's `user` entry after a run is the spec-side fold of the
operations over the initial entry. -/
lemma home_runOps (ops : List Op) (s : Session) (st : Store) :
    home (runOps ops (s, st)).1 = specUser ops (home s) := by
  induction ops generalizing s st with
  | nil => rfl
  | cons o rest ih =>
    have h1 : runOps (o :: rest) (s, st) = runOps rest (runOp (s, st) o) := rfl
    rw [h1, specUser, ← home_runOp o s st]
    rcases hro : runOp (s, st) o with ⟨s', st'⟩
    exact ih s' st'

/-- C1: `save_user` overwrites the fields of existing rows matching
(provider, provider_id) when there are any (row count unchanged, every
matching row becomes exactly the given data with the given `updated_at`,
rows with other keys untouched), and otherwise inserts one new row holding
exactly the given fields. -/
theorem save_user_upsert (store : Store) (a : SaveArgs) (t : Nat) :
    ((keyFilter store a.provider a.provider_id).isEmpty = false →
      (save_user store a t).length = store.length ∧
      findKey (save_user store a t) a.provider a.provider_id = some (recordOf a t) ∧
      (∀ r ∈ keyFilter (save_user store a t) a.provider a.provider_id,
        r = recordOf a t) ∧
      (∀ p pid, ¬(p = a.provider ∧ pid = a.provider_id) →
        keyFilter (save_user store a t) p pid = keyFilter store p pid)) ∧
    ((keyFilter store a.provider a.provider_id).isEmpty = true →
      save_user store a t = store ++ [recordOf a t]) := by
  constructor
  · intro h
    refine ⟨?_, findKey_save_user store a t, ?_, ?_⟩
    · rw [length_save_user]
      simp [h]
    · intro r hr
      rw [keyFilter_save_user_self] at hr
      simp only [h, Bool.false_eq_true, if_false, List.mem_map] at hr
      obtain ⟨x, _, hx⟩ := hr
      exact hx.symm
    · intro p pid hne
      exact keyFilter_save_user_ne store a t p pid hne
  · intro h
    exact save_user_insert store a t h

/-- Witness for `save_user_upsert`: both branches at concrete inputs. -/
theorem save_user_upsert_w :
    ((keyFilter (save_user [] demoArgs 3) demoArgs2.provider demoArgs2.provider_id).isEmpty
        = false ∧
      findKey (save_user (save_user [] demoArgs 3) demoArgs2 7) demoArgs2.provider
        demoArgs2.provider_id = some (recordOf demoArgs2 7)) ∧
    ((keyFilter [] demoArgs.provider demoArgs.provider_id).isEmpty = true ∧
      save_user [] demoArgs 3 = [] ++ [recordOf demoArgs 3]) :=
  ⟨⟨by decide,
    ((save_user_upsert (save_user [] demoArgs 3) demoArgs2 7).1 (by decide)).2.1⟩,
   ⟨by decide, (save_user_upsert [] demoArgs 3).2 (by decide)⟩⟩

/-- C2: under sequential execution, `save_user` preserves at-most-one-row-
per-key; a second call for the same identity with changed fields keeps the
row count, overwrites the row in place, and advances `updated_at`. -/
theorem save_user_invariant :
    (∀ (store : Store) (a : SaveArgs) (t : Nat),
      atMostOne store → atMostOne (save_user store a t)) ∧
    (∀ (store : Store) (a1 a2 : SaveArgs) (t1 t2 : Nat),
      a1.provider = a2.provider → a1.provider_id = a2.provider_id → t1 < t2 →
      (save_user (save_user store a1 t1) a2 t2).length
          = (save_user store a1 t1).length ∧
      findKey (save_user store a1 t1) a1.provider a1.provider_id
          = some (recordOf a1 t1) ∧
      findKey (save_user (save_user store a1 t1) a2 t2) a2.provider a2.provider_id
          = some (recordOf a2 t2) ∧
      (recordOf a1 t1).updated_at < (recordOf a2 t2).updated_at) := by
  constructor
  · exact fun store a t h => save_user_atMostOne store a t h
  · intro store a1 a2 t1 t2 hp hpid ht
    have h1 : findKey (save_user store a1 t1) a1.provider a1.provider_id
        = some (recordOf a1 t1) := findKey_save_user store a1 t1
    have hne : (keyFilter (save_user store a1 t1) a2.provider a2.provider_id).isEmpty
        = false := by
      rw [← hp, ← hpid]
      unfold findKey at h1
      cases hl : keyFilter (save_user store a1 t1) a1.provider a1.provider_id with
      | nil => rw [hl] at h1; simp at h1
      | cons x xs => simp [hl]
    refine ⟨?_, h1, findKey_save_user (save_user store a1 t1) a2 t2, ht⟩
    rw [length_save_user]
    simp [hne]

/-- Witness for `save_user_invariant`: two saves of the same identity with
changed name/email at times 3 < 7 on the empty store. -/
theorem save_user_invariant_w :
    atMostOne (save_user [] demoArgs 3) ∧
    (demoArgs.provider = demoArgs2.provider ∧
      demoArgs.provider_id = demoArgs2.provider_id ∧ 3 < 7 ∧
      (save_user (save_user [] demoArgs 3) demoArgs2 7).length
          = (save_user [] demoArgs 3).length) :=
  ⟨save_user_invariant.1 [] demoArgs 3 (fun p pid => by simp [keyFilter, atMostOne]),
   by decide, by decide, by decide,
   (save_user_invariant.2 [] demoArgs demoArgs2 3 7 (by decide) (by decide)
      (by decide)).1⟩

/-- C3 counterexample: on a run where the token exchange and profile fetch
succeed but the database write raises, the Microsoft handler has no
`try/except`, so the exception escapes the handler instead of being rendered
as a JSON (or any) response — refuting "no such exception escapes". -/
theorem microsoft_exception_escapes :
    auth_redirect msEscapeEnv [] [] = .error "db error" := by decide

/-- C3 amended: the Google and Facebook handlers catch every exception from
steps 1–4 and always respond (error page or redirect); the Microsoft handler,
having no `try/except`, responds only on its explicit checks (every non-raising
run yields a JSON object or a redirect), and a raised exception escapes it. -/
theorem callback_error_rendering :
    (∀ (env : GoogleEnv) (s : Session) (st : Store),
      (∃ m, (auth_google env s st).1 = .errorPage m) ∨
      (auth_google env s st).1 = .redirect "/") ∧
    (∀ (env : FacebookEnv) (s : Session) (st : Store),
      (∃ m, (auth_facebook env s st).1 = .errorPage m) ∨
      (auth_facebook env s st).1 = .redirect "/") ∧
    (∀ (env : MicrosoftEnv) (s : Session) (st : Store) r,
      auth_redirect env s st = .ok r →
      (∃ b, r.1 = .json b) ∨ r.1 = .redirect "/") ∧
    (∃ e, auth_redirect msEscapeEnv [] [] = Except.error e) := by
  refine ⟨?_, ?_, ?_, ⟨"db error", by decide⟩⟩
  · intro env s st
    cases htok : env.token with
    | error e => exact Or.inl ⟨e, by simp [auth_google, htok]⟩
    | ok token =>
      cases hui : env.userinfo token with
      | error e => exact Or.inl ⟨e, by simp [auth_google, htok, hui]⟩
      | ok user_data =>
        cases hdb : env.dbOk
        · exact Or.inl ⟨"db error", by simp [auth_google, htok, hui, hdb, save_userE]⟩
        · exact Or.inr (by simp [auth_google, htok, hui, hdb, save_userE])
  · intro env s st
    cases htok : env.token with
    | error e => exact Or.inl ⟨e, by simp [auth_facebook, htok]⟩
    | ok token =>
      cases hme : env.me token with
      | error e => exact Or.inl ⟨e, by simp [auth_facebook, htok, hme]⟩
      | ok user_info =>
        cases hargs : facebookArgs user_info with
        | error e => exact Or.inl ⟨e, by simp [auth_facebook, htok, hme, hargs]⟩
        | ok a =>
          cases hdb : env.dbOk
          · exact Or.inl ⟨"db error",
              by simp [auth_facebook, htok, hme, hargs, hdb, save_userE]⟩
          · exact Or.inr
              (by simp [auth_facebook, htok, hme, hargs, hdb, save_userE])
  · intro env s st r h
    by_cases hc : msCodeMissing env.code
    · simp only [auth_redirect, hc, if_true, Except.ok.injEq] at h
      exact Or.inl ⟨msMissingBody, by rw [← h]; rfl⟩
    · cases htr : env.tokenResult with
      | error e => simp [auth_redirect, hc, htr] at h
      | ok result =>
        by_cases herr : (jlookup result "error").isSome
        · simp only [auth_redirect, hc, htr, herr, if_true, if_false,
            Bool.false_eq_true, Except.ok.injEq] at h
          exact Or.inl ⟨_, by rw [← h]⟩
        · cases hat : jlookup result "access_token" with
          | none => simp [auth_redirect, hc, htr, herr, hat] at h
          | some access_token =>
            cases hg : env.graph access_token with
            | error e => simp [auth_redirect, hc, htr, herr, hat, hg] at h
            | ok graph_data =>
              cases hargs : microsoftArgs graph_data with
              | error e =>
                simp [auth_redirect, hc, htr, herr, hat, hg, hargs] at h
              | ok a =>
                cases hdb : env.dbOk
                · simp [auth_redirect, hc, htr, herr, hat, hg, hargs, hdb,
                    save_userE] at h
                · simp only [auth_redirect, hc, htr, herr, hat, hg, hargs, hdb,
                    save_userE, if_true, if_false, Bool.false_eq_true,
                    Except.ok.injEq] at h
                  exact Or.inr (by rw [← h])

/-- Witness for `callback_error_rendering`: its Microsoft conjunct applied to
the concrete missing-code run. -/
theorem callback_error_rendering_w :
    auth_redirect msNoCodeEnv [] [] = .ok (.json msMissingBody, [], []) ∧
    ((∃ b, (Response.json msMissingBody, ([] : Session), ([] : Store)).1 = .json b) ∨
      (Response.json msMissingBody, ([] : Session), ([] : Store)).1 = .redirect "/") :=
  ⟨by decide,
   callback_error_rendering.2.2.1 msNoCodeEnv [] [] (.json msMissingBody, [], [])
     (by decide)⟩

/-- C4: a failed callback (error page for Google/Facebook, JSON error for
Microsoft, or an exception escaping the Microsoft handler) writes nothing:
the session and the store after the attempt equal the session and store
before it. -/
theorem failed_callback_frame :
    (∀ (env : GoogleEnv) (s : Session) (st : Store) m,
      (auth_google env s st).1 = .errorPage m → (auth_google env s st).2 = (s, st)) ∧
    (∀ (env : FacebookEnv) (s : Session) (st : Store) m,
      (auth_facebook env s st).1 = .errorPage m →
      (auth_facebook env s st).2 = (s, st)) ∧
    (∀ (env : MicrosoftEnv) (s : Session) (st : Store) b s' st',
      auth_redirect env s st = .ok (.json b, s', st') → s' = s ∧ st' = st) ∧
    (∀ (env : MicrosoftEnv) (s : Session) (st : Store) e,
      auth_redirect env s st = .error e →
      runOp (s, st) (.opMicrosoft env) = (s, st)) := by
  refine ⟨?_, ?_, ?_, ?_⟩
  · intro env s st m h
    cases htok : env.token with
    | error e => simp [auth_google, htok]
    | ok token =>
      cases hui : env.userinfo token with
      | error e => simp [auth_google, htok, hui]
      | ok user_data =>
        cases hdb : env.dbOk
        · simp [auth_google, htok, hui, hdb, save_userE]
        · simp [auth_google, htok, hui, hdb, save_userE] at h
  · intro env s st m h
    cases htok : env.token with
    | error e => simp [auth_facebook, htok]
    | ok token =>
      cases hme : env.me token with
      | error e => simp [auth_facebook, htok, hme]
      | ok user_info =>
        cases hargs : facebookArgs user_info with
        | error e => simp [auth_facebook, htok, hme, hargs]
        | ok a =>
          cases hdb : env.dbOk
          · simp [auth_facebook, htok, hme, hargs, hdb, save_userE]
          · simp [auth_facebook, htok, hme, hargs, hdb, save_userE] at h
  · intro env s st b s' st' h
    by_cases hc : msCodeMissing env.code
    · simp only [auth_redirect, hc, if_true, Except.ok.injEq, Prod.mk.injEq] at h
      exact ⟨h.2.1.symm, h.2.2.symm⟩
    · cases htr : env.tokenResult with
      | error e => simp [auth_redirect, hc, htr] at h
      | ok result =>
        by_cases herr : (jlookup result "error").isSome
        · simp only [auth_redirect, hc, htr, herr, if_true, if_false,
            Bool.false_eq_true, Except.ok.injEq, Prod.mk.injEq] at h
          exact ⟨h.2.1.symm, h.2.2.symm⟩
        · cases hat : jlookup result "access_token" with
          | none => simp [auth_redirect, hc, htr, herr, hat] at h
          | some access_token =>
            cases hg : env.graph access_token with
            | error e => simp [auth_redirect, hc, htr, herr, hat, hg] at h
            | ok graph_data =>
              cases hargs : microsoftArgs graph_data with
              | error e =>
                simp [auth_redirect, hc, htr, herr, hat, hg, hargs] at h
              | ok a =>
                cases hdb : env.dbOk
                · simp [auth_redirect, hc, htr, herr, hat, hg, hargs, hdb,
                    save_userE] at h
                · simp [auth_redirect, hc, htr, herr, hat, hg, hargs, hdb,
                    save_userE] at h
  · intro env s st e h
    simp [runOp, h]

/-- Witness for `failed_callback_frame`: concrete failing runs for each
handler leave the concrete initial session and store intact. -/
theorem failed_callback_frame_w :
    ((auth_google gFailEnv [("user", .null)] []).1 = .errorPage "oauth error" ∧
      (auth_google gFailEnv [("user", .null)] []).2 = ([("user", .null)], [])) ∧
    ((auth_facebook fbFailEnv [] []).1 = .errorPage "network error" ∧
      (auth_facebook fbFailEnv [] []).2 = ([], [])) ∧
    (auth_redirect msNoCodeEnv [] [] = .ok (.json msMissingBody, [], []) ∧
      ([] : Session) = [] ∧ ([] : Store) = []) ∧
    (auth_redirect msEscapeEnv [] [] = .error "db error" ∧
      runOp ([], []) (.opMicrosoft msEscapeEnv) = ([], [])) :=
  ⟨⟨by decide, failed_callback_frame.1 gFailEnv [("user", .null)] [] "oauth error"
      (by decide)⟩,
   ⟨by decide, failed_callback_frame.2.1 fbFailEnv [] [] "network error" (by decide)⟩,
   ⟨by decide, failed_callback_frame.2.2.1 msNoCodeEnv [] [] msMissingBody [] []
      (by decide)⟩,
   ⟨by decide, failed_callback_frame.2.2.2 msEscapeEnv [] [] "db error" (by decide)⟩⟩

/-- C5: the session holds at most the one `user` entry tracked here; after
any operation sequence its `user` entry is the spec-side fold: the profile
of the most recent successful callback not followed by a logout (a complete
overwrite on each success, cleared by logout), and starting anonymous it is
absent when there is no such callback. -/
theorem session_state_machine :
    (∀ (ops : List Op) (s : Session) (st : Store),
      home (runOps ops (s, st)).1 = specUser ops (home s)) ∧
    (∀ (ops : List Op) (st : Store),
      home (runOps ops ([], st)).1 = specUser ops none) :=
  ⟨fun ops s st => home_runOps ops s st, fun ops st => home_runOps ops [] st⟩

/-- C6: logout redirects to the home page, leaves the session with no
entries at all (a subsequent home-page render is anonymous), and leaves
every stored identity record unchanged. -/
theorem logout_clears_session (s : Session) (st : Store) :
    logout s st = (.redirect "/", ([] : Session), st) ∧
    home (logout s st).2.1 = none :=
  ⟨rfl, rfl⟩

/-- C7: §8's Facebook profile normalizes to picture `"http://img"`; in
general the picture is read from the nested path `picture.data.url`. -/
theorem facebook_picture_normalization :
    (facebookArgs fbDemoProfile = .ok fbDemoArgs ∧
      fbDemoArgs.picture = some (.str "http://img")) ∧
    (∀ (fs pfs dfs : JObj),
      jlookup fs "picture" = some (.obj pfs) →
      jlookup pfs "data" = some (.obj dfs) →
      fbPicture (.obj fs) = .ok (jlookup dfs "url")) := by
  refine ⟨⟨by decide, by decide⟩, fun fs pfs dfs h1 h2 => ?_⟩
  simp [fbPicture, pyGetD, pyGet, h1, h2]

/-- Witness for `facebook_picture_normalization`: the nested-path conjunct
at §8's concrete profile. -/
theorem facebook_picture_normalization_w :
    jlookup fbDemoFields "picture" = some (.obj fbDemoPic) ∧
    jlookup fbDemoPic "data" = some (.obj fbDemoData) ∧
    fbPicture (.obj fbDemoFields) = .ok (jlookup fbDemoData "url") :=
  ⟨by decide, by decide,
   facebook_picture_normalization.2 fbDemoFields fbDemoPic fbDemoData
     (by decide) (by decide)⟩

/-- C8 counterexample: `mail` present and non-null but empty.  The claim
predicts email `""` (the mail value, since it is present and non-null); the
code's `or` is truthiness-based and yields `userPrincipalName` instead. -/
theorem microsoft_email_empty_mail_cx :
    jlookup msMailEmpty "mail" = some (.str "") ∧
    Json.str "" ≠ Json.null ∧
    msEmail msMailEmpty = some (.str "a@x.com") ∧
    some (Json.str "a@x.com") ≠ some (Json.str "") := by decide

/-- C8 amended: the email is the `mail` value when present and truthy (in
particular non-null and non-empty), and falls back to `userPrincipalName`
when `mail` is absent or falsy (null, empty string, ...); in particular
`mail: null` with `userPrincipalName: "a@x.com"` yields `"a@x.com"`. -/
theorem microsoft_email_fallback :
    (∀ g : JObj, jlookup g "mail" = some .null →
      msEmail g = jlookup g "userPrincipalName") ∧
    (microsoftArgs (.obj msNullMail) = .ok msDemoArgs ∧
      msDemoArgs.email = some (.str "a@x.com")) ∧
    (∀ g : JObj, optTruthy (jlookup g "mail") = true →
      msEmail g = jlookup g "mail") ∧
    (∀ g : JObj, optTruthy (jlookup g "mail") = false →
      msEmail g = jlookup g "userPrincipalName") := by
  refine ⟨fun g h => ?_, ⟨by decide, by decide⟩, fun g h => ?_, fun g h => ?_⟩
  · simp [msEmail, pyOr, h, optTruthy, Json.truthy]
  · simp [msEmail, pyOr, h]
  · simp [msEmail, pyOr, h]

/-- Witness for `microsoft_email_fallback`: the null-mail conjunct at §8's
concrete profile. -/
theorem microsoft_email_fallback_w :
    jlookup msNullMail "mail" = some .null ∧
    msEmail msNullMail = jlookup msNullMail "userPrincipalName" :=
  ⟨by decide, microsoft_email_fallback.1 msNullMail (by decide)⟩

/-- C9: whatever profile the Graph `/me` call returns, the Microsoft
handler's normalized record has `profile_picture = None`. -/
theorem microsoft_picture_none (g : Json) (a : SaveArgs)
    (h : microsoftArgs g = .ok a) : a.picture = none := by
  cases g with
  | obj fs =>
    simp only [microsoftArgs, Except.ok.injEq] at h
    rw [← h]
  | null => simp [microsoftArgs] at h
  | bool b => simp [microsoftArgs] at h
  | num n => simp [microsoftArgs] at h
  | str s => simp [microsoftArgs] at h
  | arr l => simp [microsoftArgs] at h

/-- Witness for `microsoft_picture_none`: the concrete §8 profile. -/
theorem microsoft_picture_none_w :
    microsoftArgs (.obj msNullMail) = .ok msDemoArgs ∧ msDemoArgs.picture = none :=
  ⟨by decide, microsoft_picture_none (.obj msNullMail) msDemoArgs (by decide)⟩

/-- C10: with no (or an empty) `code` query parameter, the Microsoft handler
returns exactly `{"error": "Missing authorization code"}` (a single-key
object, no `description`), and the session and store pass through unchanged
— no token exchange, store access or session write happens. -/
theorem microsoft_missing_code (env : MicrosoftEnv) (s : Session) (st : Store)
    (h : msCodeMissing env.code = true) :
    auth_redirect env s st = .ok (.json msMissingBody, s, st) := by
  simp [auth_redirect, h, msMissingBody]

/-- Witness for `microsoft_missing_code`: the concrete no-code request. -/
theorem microsoft_missing_code_w :
    msCodeMissing msNoCodeEnv.code = true ∧
    auth_redirect msNoCodeEnv [("user", .null)] [] =
      .ok (.json msMissingBody, [("user", .null)], []) :=
  ⟨by decide, microsoft_missing_code msNoCodeEnv [("user", .null)] [] (by decide)⟩
